import Mathlib

/-!
Shallow embedding of the CNN-Audio-Classifier inference service
(`src/main.py` — `AudioProcessor`, `Main.load_model`, `Main.evaluate`)
and of the network bookkeeping in `src/model.py` (`ResidualBlock`,
`AudioClassifier.forward`), together with proofs settling the frozen
claims about the natural-language specification.

Modelling conventions:
- IEEE floating-point numbers are modelled by `FVal`: a finite value
  carries an exact rational (rounding and finite-overflow behaviour is
  abstracted away — no claim depends on it), and the non-finite values
  `nan`, `inf`, `neginf` are explicit constructors, since the claims are
  about NaN/Infinity handling.
- External collaborators that the spec declares out of scope (the audio
  decoder's output, `librosa.resample`, the mel-spectrogram transform,
  the trained network's numeric output, and the real exponential used
  by softmax) are passed in as an explicit `Externals` record, so every
  theorem quantifies over them; the code of this repository (channel
  collapse, the resample guard, softmax/top-k post-processing, the
  visualization filter, waveform down-sampling, response assembly,
  checkpoint loading, activation-map keying) is embedded directly.
-/

/-- Model of a floating-point scalar: an exact finite rational, or one of
the three non-finite IEEE values. -/
inductive FVal where
  | finite (q : ℚ)
  | nan
  | inf
  | neginf
deriving DecidableEq

/-- True exactly on finite values (model of `np.isfinite`). -/
def isFinite : FVal → Bool
  | .finite _ => true
  | _ => false

/-- Largest finite `float32` value, `(2 - 2⁻²³) · 2¹²⁷`: the replacement
`np.nan_to_num` / `torch.nan_to_num` use for `+Infinity` on
single-precision data (the arrays in `Main.evaluate` are `float32`). -/
def float32Max : ℚ := 2 ^ 128 - 2 ^ 104

/-- Model of `np.nan_to_num` / `torch.nan_to_num` with default arguments:
NaN becomes 0, `+Infinity` the largest finite value, `-Infinity` the most
negative finite value; finite values pass through unchanged
(`src/main.py` lines 113, 127, 134). -/
def nanToNum : FVal → FVal
  | .finite q => .finite q
  | .nan => .finite 0
  | .inf => .finite float32Max
  | .neginf => .finite (-float32Max)

/-- The rational carried by `nanToNum v`; used where the sanitized value
feeds exact arithmetic (the softmax over the sanitized logits). -/
def nanToNumQ : FVal → ℚ
  | .finite q => q
  | .nan => 0
  | .inf => float32Max
  | .neginf => -float32Max

/-- IEEE addition restricted to the cases the model distinguishes:
NaN is absorbing, opposite infinities give NaN, an infinity absorbs
finite values, and finite addition is exact rational addition. -/
def fadd : FVal → FVal → FVal
  | .nan, _ => .nan
  | _, .nan => .nan
  | .inf, .neginf => .nan
  | .neginf, .inf => .nan
  | .inf, _ => .inf
  | _, .inf => .inf
  | .neginf, _ => .neginf
  | _, .neginf => .neginf
  | .finite a, .finite b => .finite (a + b)

/-- Division of a float value by a positive natural count (the divisor in
a mean); non-finite classes are preserved, finite division is exact. -/
def fdivNat (x : FVal) (n : Nat) : FVal :=
  match x with
  | .finite a => .finite (a / (n : ℚ))
  | .nan => .nan
  | .inf => .inf
  | .neginf => .neginf

/-- A decoded audio buffer as returned by `sf.read`: either a 1-D mono
array of samples, or a 2-D array of frames, each frame holding one sample
per channel (axis 0 = frames, axis 1 = channels). -/
abbrev AudioArray := List FVal ⊕ List (List FVal)

/-- Mean of one frame across its channels: `np.mean` over axis 1 applied
to a single row (sum of the row divided by its length). -/
def rowMean (row : List FVal) : FVal :=
  fdivNat (row.foldl fadd (FVal.finite 0)) row.length

/-- Channel collapse, `src/main.py` lines 102-103: a 2-D (multi-channel)
array is averaged across axis 1, a 1-D array is passed through. -/
def channelCollapse : AudioArray → List FVal
  | .inl w => w
  | .inr rows => rows.map rowMean

/-- Channel count of a 2-D decoded buffer (length of its first frame). -/
def channelsOf (rows : List (List FVal)) : Nat :=
  (rows.head?.getD []).length

/-- The longer of the two dimensions of a decoded buffer (the quantity
the spec's channel-collapse property refers to). -/
def longerDim : AudioArray → Nat
  | .inl w => w.length
  | .inr rows => max rows.length (channelsOf rows)

/-- A tensor snapshot: its shape together with its values in row-major
order (the granularity at which `Main.evaluate` manipulates activation
maps). -/
structure PTensor where
  shape : List Nat
  data : List FVal
deriving DecidableEq

/-- Python rank of a tensor (`tensor.dim()`). -/
def pyDim (t : PTensor) : Nat := t.shape.length

/-- Embedding of the Python expression `tensor.dim == 4` on line 123 of
`src/main.py`. In Python, `tensor.dim` without parentheses denotes the
bound method object, and a bound method never compares equal to an
integer, so the expression evaluates to `False` for every tensor,
whatever its rank (the call `tensor.dim() == 4` is not what the code
executes). -/
def dimCheckAsWritten (_t : PTensor) : Bool := false

/-- Model of `torch.mean(tensor, dim=1)` on a shape-tagged row-major
tensor: axis 1 is averaged away; a tensor of rank below 2 is returned
unchanged (the library would raise there; the site never runs on such
input). -/
def meanDim1 (t : PTensor) : PTensor :=
  match t.shape with
  | n :: c :: rest =>
    let inner := rest.prod
    ⟨n :: rest,
      (List.range (n * inner)).map (fun idx =>
        let b := idx / inner
        let r := idx % inner
        fdivNat
          (((List.range c).map
              (fun ch => t.data.getD ((b * c + ch) * inner + r) (FVal.finite 0))).foldl
            fadd (FVal.finite 0))
          c)⟩
  | _ => t

/-- Model of `.squeeze(0)`: drops the leading axis when it has size 1. -/
def squeeze0 (t : PTensor) : PTensor :=
  match t.shape with
  | 1 :: rest => ⟨rest, t.data⟩
  | _ => t

/-- Elementwise map over a tensor's values. -/
def tMapData (f : FVal → FVal) (t : PTensor) : PTensor :=
  ⟨t.shape, t.data.map f⟩

/-- True when every value of the tensor is finite. -/
def tensorAllFinite (t : PTensor) : Bool := t.data.all isFinite

/-- One visualization entry, `src/main.py` lines 124-131: channel-average
(`torch.mean(tensor, dim=1)`), drop the batch axis (`.squeeze(0)`),
sanitize (`np.nan_to_num`), and emit shape plus values. -/
def mkViz (t : PTensor) : List Nat × List FVal :=
  let aggregate := meanDim1 t
  let squeezed := squeeze0 aggregate
  let clean := tMapData nanToNum squeezed
  (clean.shape, clean.data)

/-- The visualization mapping built by the loop on lines 121-131 of
`src/main.py`: each captured map passes through the (as-written)
dimensionality check `tensor.dim == 4` and, when it passes, is reduced by
`mkViz` under its capture key. -/
def visualizations (fmaps : List (String × PTensor)) :
    List (String × (List Nat × List FVal)) :=
  (fmaps.filter (fun nt => dimCheckAsWritten nt.2)).map
    (fun nt => (nt.1, mkViz nt.2))

/-- Softmax over a list of scores with the exponential passed explicitly
(`torch.softmax(output, dim=1)` on the single batch row): each entry is
its exponential divided by the sum of all exponentials. -/
def softmax (pexp : ℚ → ℚ) (l : List ℚ) : List ℚ :=
  l.map (fun x => pexp x / (l.map pexp).sum)

/-- Ordering used by `torch.topk`: the pair with the larger value comes
first. -/
def rankGE (a b : ℚ × Nat) : Prop := b.1 ≤ a.1

instance : DecidableRel rankGE := fun a b => inferInstanceAs (Decidable (b.1 ≤ a.1))

instance : IsTotal (ℚ × Nat) rankGE := ⟨fun a b => le_total b.1 a.1⟩

instance : IsTrans (ℚ × Nat) rankGE := ⟨fun _ _ _ hab hbc => le_trans hbc hab⟩

/-- Values paired with their indices, the joint (values, indices) view
`torch.topk` works on. -/
def enumVals (l : List ℚ) : List (ℚ × Nat) :=
  l.zip (List.range l.length)

/-- Sort (value, index) pairs by descending value. -/
def sortDesc (l : List (ℚ × Nat)) : List (ℚ × Nat) :=
  l.insertionSort rankGE

/-- Model of `torch.topk(probabilities, k)` on the single batch row: the
`k` largest values with their indices, sorted by descending value. -/
def topk (l : List ℚ) (k : Nat) : List (ℚ × Nat) :=
  (sortDesc (enumVals l)).take k

/-- Python slice `a[::s]` for a positive step `s`: every `s`-th element
starting from index 0. -/
def takeEvery (s : Nat) : List α → List α
  | [] => []
  | x :: xs => x :: takeEvery s (xs.drop (s - 1))
termination_by l => l.length
decreasing_by simp; omega

/-- Waveform down-sampling, `src/main.py` lines 136-141: when the sample
count exceeds 8000, keep every `(len // 8000)`-th sample; otherwise keep
the list unchanged. -/
def downsampleWaveform (l : List FVal) : List FVal :=
  if l.length > 8000 then takeEvery (l.length / 8000) l else l

/-- The out-of-scope collaborators of `Main.evaluate`, passed explicitly:
`librosa.resample` (waveform, original rate; target rate is fixed at
44100), the mel-spectrogram transform of `AudioProcessor` (returning the
2-D mel×frame array wrapped as the (1,1,·,·) tensor), the trained
network's forward pass (logits of the single batch row, plus captured
feature maps), and the exponential function underlying softmax. -/
structure Externals where
  resample : List FVal → Nat → List FVal
  melSpec : List FVal → List (List FVal)
  forward : List (List FVal) → List FVal × List (String × PTensor)
  pexp : ℚ → ℚ

/-- Channel collapse followed by the conditional resample,
`src/main.py` lines 102-106: resampling to 44100 Hz happens exactly when
the decoded sample rate differs from 44100 (exact integer inequality). -/
def collapsedResampled (ext : Externals) (audio : AudioArray)
    (sampleRate : Nat) : List FVal :=
  let a := channelCollapse audio
  if sampleRate ≠ 44100 then ext.resample a sampleRate else a

/-- Logits returned by the instrumented forward pass on this request. -/
def modelLogits (ext : Externals) (audio : AudioArray) (sampleRate : Nat) :
    List FVal :=
  (ext.forward (ext.melSpec (collapsedResampled ext audio sampleRate))).1

/-- Feature maps captured by the instrumented forward pass. -/
def modelFmaps (ext : Externals) (audio : AudioArray) (sampleRate : Nat) :
    List (String × PTensor) :=
  (ext.forward (ext.melSpec (collapsedResampled ext audio sampleRate))).2

/-- The logits after `torch.nan_to_num` (line 113), as exact rationals. -/
def cleanLogits (ext : Externals) (audio : AudioArray) (sampleRate : Nat) :
    List ℚ :=
  (modelLogits ext audio sampleRate).map nanToNumQ

/-- The full softmax distribution over the class set (line 115). -/
def fullProbs (ext : Externals) (audio : AudioArray) (sampleRate : Nat) :
    List ℚ :=
  softmax ext.pexp (cleanLogits ext audio sampleRate)

/-- The predictions list (lines 117-119): top-3 of the distribution,
each paired with its class label. -/
def predictionsOf (ext : Externals) (classes : List String)
    (audio : AudioArray) (sampleRate : Nat) : List (String × ℚ) :=
  (topk (fullProbs ext audio sampleRate) 3).map
    (fun p => (classes.getD p.2 "", p.1))

/-- The sanitized spectrogram rows (lines 133-134). -/
def spectrogramValuesOf (ext : Externals) (audio : AudioArray)
    (sampleRate : Nat) : List (List FVal) :=
  (ext.melSpec (collapsedResampled ext audio sampleRate)).map
    (fun row => row.map nanToNum)

/-- The emitted waveform preview values (lines 136-141, 146): the
down-sampled post-resample audio, with no sanitization applied. -/
def waveformValuesOf (ext : Externals) (audio : AudioArray)
    (sampleRate : Nat) : List FVal :=
  downsampleWaveform (collapsedResampled ext audio sampleRate)

/-- The reported duration (line 148): length of `audio_data` — which at
that point is the post-resample buffer — divided by the decoded sample
rate. -/
def durationOf (ext : Externals) (audio : AudioArray) (sampleRate : Nat) :
    ℚ :=
  ((collapsedResampled ext audio sampleRate).length : ℚ) / (sampleRate : ℚ)

/-- The JSON response assembled on lines 142-149. -/
structure EvalResponse where
  predictions : List (String × ℚ)
  visualization : List (String × (List Nat × List FVal))
  spectrogramShape : List Nat
  spectrogramValues : List (List FVal)
  waveformValues : List FVal
  sampleRate : Nat
  duration : ℚ

/-- `Main.evaluate`, `src/main.py` lines 96-149: decode → channel
collapse → conditional resample → spectrogram → instrumented forward →
softmax/top-3 → visualization filter → sanitized spectrogram → waveform
down-sampling → response assembly. Base64/audio decoding failures raise
before this point; the function models the successful (200) path on the
decoded buffer. -/
def evaluate (ext : Externals) (classes : List String) (audio : AudioArray)
    (sampleRate : Nat) : EvalResponse :=
  let cleanSpec := spectrogramValuesOf ext audio sampleRate
  ⟨predictionsOf ext classes audio sampleRate,
    visualizations (modelFmaps ext audio sampleRate),
    [cleanSpec.length, (cleanSpec.head?.getD []).length],
    cleanSpec,
    waveformValuesOf ext audio sampleRate,
    sampleRate,
    durationOf ext audio sampleRate⟩

/-- Shape (channels, height, width) of a single-batch activation tensor;
the batch axis is carried unchanged by every layer involved and is
omitted. -/
structure TShape where
  c : Nat
  h : Nat
  w : Nat
deriving DecidableEq

/-- Output size of one spatial dimension of `nn.Conv2d`:
`(d + 2·padding - kernel) // stride + 1`. -/
def convOutDim (d kernel stride padding : Nat) : Nat :=
  (d + 2 * padding - kernel) / stride + 1

/-- Shape effect of `nn.Conv2d(·, outC, kernel, stride, padding)`;
`nn.BatchNorm2d` and `torch.relu` preserve shapes. -/
def conv2dShape (outC kernel stride padding : Nat) (t : TShape) : TShape :=
  ⟨outC, convOutDim t.h kernel stride padding,
    convOutDim t.w kernel stride padding⟩

/-- The projection-shortcut condition of `ResidualBlock.__init__`,
`src/model.py` line 12: `stride != 1 or in_channels != out_channels`. -/
def useShortcut (inC outC stride : Nat) : Bool :=
  stride != 1 || inC != outC

/-- Shape of the main path of `ResidualBlock.forward`: `conv1`
(3×3, given stride, padding 1) then `conv2` (3×3, stride 1, padding 1);
the batch norms and the ReLU preserve shape. -/
def residualMainShape (outC stride : Nat) (t : TShape) : TShape :=
  conv2dShape outC 3 1 1 (conv2dShape outC 3 stride 1 t)

/-- Shape of the shortcut path, `src/model.py` lines 11-17 and 24: the
1×1 projection convolution (given stride, padding 0) followed by a batch
norm when the projection is present, the identity otherwise. -/
def residualShortcutShape (inC outC stride : Nat) (t : TShape) : TShape :=
  if useShortcut inC outC stride then conv2dShape outC 1 stride 0 t else t

/-- Shape of the block's output: the residual addition `out += shortcut`
and the final ReLU preserve the main path's shape. -/
def residualBlockOutShape (inC outC stride : Nat) (t : TShape) : TShape :=
  residualMainShape outC stride t

/-- The two snapshots `ResidualBlock.forward` records when instrumented,
`src/model.py` lines 26-30: the pre-activation sum under `<p>.conv` and
the post-activation output under `<p>.relu`. -/
def residualBlockKeys (p : String) : List String :=
  [p ++ ".conv", p ++ ".relu"]

/-- The capture keys produced, in order, by the instrumented branch of
`AudioClassifier.forward`, `src/model.py` lines 66-81: the stem output
under `"layer1"`; for each stage, its blocks' snapshots followed by the
stage output under `"layerN"`. Stage 2 has 3 blocks, stage 3 has 4,
stage 4 has 6 and stage 5 has 3 (`__init__`, lines 43-46); the per-block
key stems are `"layer2.block-" + str(i)` through `"layer4.block-" +
str(i)` (lines 71, 74, 77) but `"layer5.block" + str(i)` — without the
hyphen — for stage 5 (line 80). -/
def featureMapKeys : List String :=
  ["layer1"]
    ++ (((List.range 3).map
          (fun i => residualBlockKeys ("layer2.block-" ++ toString i))).flatten
        ++ ["layer2"])
    ++ (((List.range 4).map
          (fun i => residualBlockKeys ("layer3.block-" ++ toString i))).flatten
        ++ ["layer3"])
    ++ (((List.range 6).map
          (fun i => residualBlockKeys ("layer4.block-" ++ toString i))).flatten
        ++ ["layer4"])
    ++ (((List.range 3).map
          (fun i => residualBlockKeys ("layer5.block" ++ toString i))).flatten
        ++ ["layer5"])

/-- A checkpoint as `Main.load_model` reads it: the ordered class-label
list under `"classes"` and the parameter dictionary's key set under
`"model_state_dict"` (parameter tensors themselves play no role in the
claims). -/
structure Checkpoint where
  classes : List String
  stateDictKeys : List String

/-- Outcome of populating the network's parameters: an exact strict load,
or a fallback load that records the missing and unexpected keys. -/
inductive LoadOutcome where
  | strict
  | degraded (missing unexpected : List String)
deriving DecidableEq

/-- Keys of `a` that are absent from `b` (the set differences printed and
recorded by `Main.load_model`). -/
def keyDiff (a b : List String) : List String :=
  a.filter (fun k => !b.contains k)

/-- Library contract of `load_state_dict(·, strict=True)`: it raises a
`RuntimeError` exactly when there are missing or unexpected keys. -/
def strictLoadRaises (modelKeys ckptKeys : List String) : Bool :=
  !(keyDiff modelKeys ckptKeys).isEmpty || !(keyDiff ckptKeys modelKeys).isEmpty

/-- `Main.load_model`, `src/main.py` lines 44-93: read the checkpoint
(any read failure propagates out of the outer handler, aborting startup),
build the network for `len(classes)` classes, attempt a strict parameter
load, and on the strict load's `RuntimeError` fall back to
`strict=False`, recording the missing and unexpected key lists. The
model-key set is a function of the class count (checkpoint reading is the
out-of-scope `torch.load`, passed as an `Except`). -/
def load_model (readCkpt : Except String Checkpoint)
    (modelKeysFor : Nat → List String) :
    Except String (List String × LoadOutcome) :=
  match readCkpt with
  | .error e => .error e
  | .ok ckpt =>
    let mk := modelKeysFor ckpt.classes.length
    if strictLoadRaises mk ckpt.stateDictKeys then
      .ok (ckpt.classes,
        .degraded (keyDiff mk ckpt.stateDictKeys)
          (keyDiff ckpt.stateDictKeys mk))
    else
      .ok (ckpt.classes, .strict)

/-- A concrete `Externals` instance for closed evaluations: the resampler
returns its input, the spectrogram is a single cell, the network returns
three finite logits and captures no feature maps, and the exponential is
the constant 1 (which is positive, as the real exponential is). -/
def ext0 : Externals :=
  ⟨fun w _ => w, fun _ => [[FVal.finite 0]],
    fun _ => ([FVal.finite 1, FVal.finite 2, FVal.finite 3], []),
    fun _ => 1⟩

/-- Like `ext0`, but the forward pass captures one genuinely rank-4
activation map under the capture key `"layer1"`. -/
def extC1 : Externals :=
  ⟨fun w _ => w, fun _ => [[FVal.finite 0]],
    fun _ => ([FVal.finite 0],
      [("layer1", ⟨[1, 1, 4, 4], List.replicate 16 (FVal.finite 1)⟩)]),
    fun _ => 1⟩

/-- Like `ext0`, but the resampler honours the documented output-length
contract of `librosa.resample`: resampling `n` samples from rate `orig`
to 44100 yields `⌈n · 44100 / orig⌉` samples. -/
def extC4 : Externals :=
  ⟨fun w sr => List.replicate ((w.length * 44100 + sr - 1) / sr) (FVal.finite 0),
    fun _ => [[FVal.finite 0]],
    fun _ => ([FVal.finite 1, FVal.finite 2, FVal.finite 3], []),
    fun _ => 1⟩

/-- A concrete stereo buffer with three frames and two channels. -/
def stereoRows3 : List (List FVal) :=
  [[FVal.finite 1, FVal.finite 3], [FVal.finite 0, FVal.finite 2],
    [FVal.finite 4, FVal.finite 4]]

/-- A concrete stereo buffer with a single frame (two channels, one
frame): a valid two-channel decoded waveform whose longer dimension is
its channel axis. -/
def stereoRows1 : List (List FVal) :=
  [[FVal.finite 0, FVal.finite 0]]

theorem visualizations_eq_nil (fmaps : List (String × PTensor)) :
    visualizations fmaps = [] := by
  simp [visualizations, dimCheckAsWritten]

theorem isFinite_nanToNum (v : FVal) : isFinite (nanToNum v) = true := by
  cases v <;> rfl

theorem takeEvery_one (l : List α) : takeEvery 1 l = l := by
  induction l with
  | nil => simp [takeEvery]
  | cons x xs ih => simp [takeEvery, ih]

theorem takeEvery_length (s : Nat) (hs : 1 ≤ s) (l : List α) :
    (takeEvery s l).length = (l.length + s - 1) / s := by
  suffices h : ∀ (n : Nat) (l : List α), l.length = n →
      (takeEvery s l).length = (l.length + s - 1) / s from h _ l rfl
  intro n
  induction n using Nat.strong_induction_on with
  | _ n ih =>
    intro l hn
    cases l with
    | nil =>
      simp only [takeEvery, List.length_nil, Nat.zero_add]
      exact (Nat.div_eq_of_lt (by omega)).symm
    | cons x xs =>
      simp only [List.length_cons] at hn
      rw [takeEvery, List.length_cons, List.length_cons]
      have hdrop : (List.drop (s - 1) xs).length = xs.length - (s - 1) :=
        List.length_drop _ _
      have hlt : (List.drop (s - 1) xs).length < n := by omega
      rw [ih _ hlt _ rfl, hdrop]
      have h2 : xs.length + 1 + s - 1 = xs.length + s := by omega
      rw [h2, Nat.add_div_right _ (by omega)]
      rcases le_or_lt (s - 1) xs.length with hc | hc
      · have h1 : xs.length - (s - 1) + s - 1 = xs.length := by omega
        rw [h1]
      · have h1 : xs.length - (s - 1) + s - 1 = s - 1 := by omega
        rw [h1, Nat.div_eq_of_lt (show s - 1 < s by omega),
          Nat.div_eq_of_lt (show xs.length < s by omega)]

theorem downsampleWaveform_length_le (l : List FVal) :
    (downsampleWaveform l).length ≤ 15999 := by
  unfold downsampleWaveform
  by_cases h : l.length > 8000
  · rw [if_pos h]
    have hq : 1 ≤ l.length / 8000 :=
      (Nat.one_le_div_iff (by norm_num)).mpr (by omega)
    rw [takeEvery_length _ hq]
    have hmod : l.length % 8000 < 8000 := Nat.mod_lt _ (by norm_num)
    have hdm := Nat.div_add_mod l.length 8000
    set q := l.length / 8000 with hqdef
    have hlt : (l.length + q - 1) / q < 16000 :=
      (Nat.div_lt_iff_lt_mul (by omega)).mpr (by omega)
    omega
  · rw [if_neg h]; omega

theorem downsampleWaveform_of_le {l : List FVal} (h : l.length ≤ 8000) :
    downsampleWaveform l = l := by
  unfold downsampleWaveform
  rw [if_neg (by omega)]

theorem softmax_mem_bounds (pexp : ℚ → ℚ) (hpos : ∀ x, 0 < pexp x)
    (L : List ℚ) (v : ℚ) (hv : v ∈ softmax pexp L) : 0 ≤ v ∧ v ≤ 1 := by
  obtain ⟨x, hx, rfl⟩ := List.mem_map.mp hv
  have hnn : ∀ a ∈ L.map pexp, 0 ≤ a := by
    intro a ha
    obtain ⟨y, _, rfl⟩ := List.mem_map.mp ha
    exact le_of_lt (hpos y)
  have hS : 0 < (L.map pexp).sum := by
    apply List.sum_pos
    · intro a ha
      obtain ⟨y, _, rfl⟩ := List.mem_map.mp ha
      exact hpos y
    · intro hnil
      exact List.ne_nil_of_mem hx (List.map_eq_nil_iff.mp hnil)
  constructor
  · exact div_nonneg (le_of_lt (hpos x)) (le_of_lt hS)
  · rw [div_le_one hS]
    exact List.single_le_sum hnn _ (List.mem_map_of_mem _ hx)

theorem softmax_sum_le_one (pexp : ℚ → ℚ) (hpos : ∀ x, 0 < pexp x)
    (L : List ℚ) : (softmax pexp L).sum ≤ 1 := by
  cases L with
  | nil => simp [softmax]
  | cons a as =>
    have hS : 0 < (((a :: as)).map pexp).sum := by
      apply List.sum_pos
      · intro b hb
        obtain ⟨y, _, rfl⟩ := List.mem_map.mp hb
        exact hpos y
      · simp
    have hcalc : (softmax pexp (a :: as)).sum =
        ((a :: as).map pexp).sum * ((((a :: as)).map pexp).sum)⁻¹ := by
      simp only [softmax, div_eq_mul_inv]
      exact List.sum_map_mul_right (a :: as) pexp _
    rw [hcalc, mul_inv_cancel₀ (ne_of_gt hS)]

theorem topk_mem_fst {l : List ℚ} {k : Nat} {p : ℚ × Nat}
    (hp : p ∈ topk l k) : p.1 ∈ l := by
  have h1 : p ∈ sortDesc (enumVals l) := List.mem_of_mem_take hp
  have h2 : p ∈ enumVals l :=
    (List.perm_insertionSort rankGE (enumVals l)).mem_iff.mp h1
  exact (List.of_mem_zip (show (p.1, p.2) ∈ _ from h2)).1

theorem topk_length (l : List ℚ) (k : Nat) :
    (topk l k).length = min k l.length := by
  unfold topk sortDesc enumVals
  rw [List.length_take, List.length_insertionSort, List.length_zip,
    List.length_range, Nat.min_self]

theorem topk_sorted (l : List ℚ) (k : Nat) :
    (topk l k).Pairwise rankGE :=
  List.Pairwise.sublist (List.take_sublist _ _)
    (List.sorted_insertionSort rankGE (enumVals l))

theorem topk_softmax_sum_le_one (pexp : ℚ → ℚ) (hpos : ∀ x, 0 < pexp x)
    (L : List ℚ) (k : Nat) :
    ((topk (softmax pexp L) k).map Prod.fst).sum ≤ 1 := by
  set P := softmax pexp L with hP
  have hsub : List.Sublist ((topk P k).map Prod.fst)
      ((sortDesc (enumVals P)).map Prod.fst) :=
    (List.take_sublist _ _).map _
  have hperm : List.Perm ((sortDesc (enumVals P)).map Prod.fst)
      ((enumVals P).map Prod.fst) :=
    (List.perm_insertionSort rankGE (enumVals P)).map _
  have hfst : (enumVals P).map Prod.fst = P :=
    List.map_fst_zip _ _ (by rw [List.length_range])
  have hnn : ∀ a ∈ (sortDesc (enumVals P)).map Prod.fst, 0 ≤ a := by
    intro a ha
    have haP : a ∈ P := by
      rw [← hfst]
      exact hperm.subset ha
    exact (softmax_mem_bounds pexp hpos L a (hP ▸ haP)).1
  calc ((topk P k).map Prod.fst).sum
      ≤ ((sortDesc (enumVals P)).map Prod.fst).sum :=
        List.Sublist.sum_le_sum hsub hnn
    _ = ((enumVals P).map Prod.fst).sum := hperm.sum_eq
    _ = P.sum := by rw [hfst]
    _ ≤ 1 := softmax_sum_le_one pexp hpos L

theorem evaluate_waveformValues (ext : Externals) (classes : List String)
    (audio : AudioArray) (sampleRate : Nat) :
    (evaluate ext classes audio sampleRate).waveformValues =
      waveformValuesOf ext audio sampleRate := rfl

theorem evaluate_duration (ext : Externals) (classes : List String)
    (audio : AudioArray) (sampleRate : Nat) :
    (evaluate ext classes audio sampleRate).duration =
      durationOf ext audio sampleRate := rfl

theorem evaluate_sampleRate (ext : Externals) (classes : List String)
    (audio : AudioArray) (sampleRate : Nat) :
    (evaluate ext classes audio sampleRate).sampleRate = sampleRate := rfl

theorem channelCollapse_inl (w : List FVal) :
    channelCollapse (Sum.inl w) = w := rfl

theorem collapsedResampled_canonical (ext : Externals) (audio : AudioArray) :
    collapsedResampled ext audio 44100 = channelCollapse audio := by
  unfold collapsedResampled
  simp

/-- C1 counterexample: a request whose instrumented forward pass captures
a genuinely rank-4 activation map under the key `"layer1"`, yet the
response's visualization mapping is empty — the captured map does not
appear, refuting the claim that every captured map is included because
the dimensionality comparison is always true. -/
theorem c1_counterexample :
    pyDim (PTensor.mk [1, 1, 4, 4] (List.replicate 16 (FVal.finite 1))) = 4 ∧
    (modelFmaps extC1 (Sum.inl [FVal.finite 0]) 44100).map Prod.fst =
      ["layer1"] ∧
    (evaluate extC1 ["a", "b", "c"] (Sum.inl [FVal.finite 0])
      44100).visualization = [] :=
  ⟨rfl, rfl, rfl⟩

/-- C1, amended: the per-map dimensionality comparison `tensor.dim == 4`,
as written, is always false (a bound method never equals an integer), so
no captured map passes the filter: for every request the response's
visualization mapping is empty. -/
theorem c1_visualization_always_empty (ext : Externals)
    (classes : List String) (audio : AudioArray) (sampleRate : Nat) :
    (evaluate ext classes audio sampleRate).visualization = [] :=
  visualizations_eq_nil _

/-- C2 counterexample: a decoded mono buffer containing a NaN sample at
the canonical rate; the emitted waveform values contain that NaN
unsanitized, so a non-finite value reaches the response. -/
theorem c2_counterexample :
    (evaluate ext0 ["a", "b", "c"] (Sum.inl [FVal.nan])
      44100).waveformValues = [FVal.nan] ∧
    isFinite FVal.nan = false :=
  ⟨rfl, rfl⟩

/-- C2, amended: sanitization covers the spectrogram values (every
emitted value is finite) and the visualization values (every emitted
value is finite), but the waveform values are emitted exactly as the
down-sampled post-resample buffer, with no sanitization applied. -/
theorem c2_sanitization_coverage (ext : Externals) (classes : List String)
    (audio : AudioArray) (sampleRate : Nat) :
    ((evaluate ext classes audio sampleRate).spectrogramValues.all
      (fun row => row.all isFinite)) = true ∧
    ((evaluate ext classes audio sampleRate).visualization.all
      (fun e => e.2.2.all isFinite)) = true ∧
    (evaluate ext classes audio sampleRate).waveformValues =
      downsampleWaveform (collapsedResampled ext audio sampleRate) := by
  refine ⟨?_, ?_, rfl⟩
  · show ((spectrogramValuesOf ext audio sampleRate).all
      (fun row => row.all isFinite)) = true
    rw [List.all_eq_true]
    intro row hrow
    rw [spectrogramValuesOf] at hrow
    obtain ⟨r, _, rfl⟩ := List.mem_map.mp hrow
    rw [List.all_eq_true]
    intro v hv
    obtain ⟨u, _, rfl⟩ := List.mem_map.mp hv
    exact isFinite_nanToNum u
  · show ((visualizations (modelFmaps ext audio sampleRate)).all
      (fun e => e.2.2.all isFinite)) = true
    rw [visualizations_eq_nil]
    rfl

/-- C3 counterexample: a mono input of 8001 samples at the canonical rate
produces a waveform preview of 8001 samples — strictly more than the
claimed cap of 8000. -/
theorem c3_counterexample :
    8000 < (evaluate ext0 ["a", "b", "c"]
      (Sum.inl (List.replicate 8001 (FVal.finite 0)))
      44100).waveformValues.length := by
  rw [evaluate_waveformValues]
  unfold waveformValuesOf
  have hcr : collapsedResampled ext0
      (Sum.inl (List.replicate 8001 (FVal.finite 0))) 44100 =
      List.replicate 8001 (FVal.finite 0) := by
    rw [collapsedResampled_canonical, channelCollapse_inl]
  rw [hcr]
  unfold downsampleWaveform
  rw [List.length_replicate]
  rw [if_pos (by norm_num)]
  have hstep : (8001 : Nat) / 8000 = 1 := by norm_num
  rw [hstep, takeEvery_one, List.length_replicate]
  norm_num

/-- C3, amended: the preview is computed from the channel-collapsed,
post-resample waveform; its length never exceeds 15999 (the cap of 8000
is exceeded whenever that waveform has between 8001 and 15999 samples),
and when the post-resample length is at most 8000 the preview echoes
those samples verbatim. -/
theorem c3_waveform_cap (ext : Externals) (classes : List String)
    (audio : AudioArray) (sampleRate : Nat) :
    (evaluate ext classes audio sampleRate).waveformValues.length ≤ 15999 ∧
    ((collapsedResampled ext audio sampleRate).length ≤ 8000 →
      (evaluate ext classes audio sampleRate).waveformValues =
        collapsedResampled ext audio sampleRate) := by
  constructor
  · exact downsampleWaveform_length_le _
  · intro h
    exact downsampleWaveform_of_le h

/-- Witness for C3 at a concrete input: a one-sample mono buffer at the
canonical rate is echoed verbatim, and the cap bound holds there. -/
theorem c3_witness :
    (evaluate ext0 ["a", "b", "c"] (Sum.inl [FVal.finite 0])
      44100).waveformValues =
      collapsedResampled ext0 (Sum.inl [FVal.finite 0]) 44100 ∧
    (evaluate ext0 ["a", "b", "c"] (Sum.inl [FVal.finite 0])
      44100).waveformValues.length ≤ 15999 :=
  ⟨(c3_waveform_cap ext0 ["a", "b", "c"] (Sum.inl [FVal.finite 0])
      44100).2 (by decide),
    (c3_waveform_cap ext0 ["a", "b", "c"] (Sum.inl [FVal.finite 0])
      44100).1⟩

/-- C4 counterexample: two samples decoded at 88200 Hz (actual duration
2/88200 seconds). With a resampler obeying the documented output-length
contract, the post-resample buffer has 1 sample, and the response reports
duration 1/88200 — not the actual duration n/r = 2/88200 — while still
reporting the decoded sample rate. -/
theorem c4_counterexample :
    (evaluate extC4 ["a", "b", "c"]
      (Sum.inl [FVal.finite 0, FVal.finite 0]) 88200).sampleRate = 88200 ∧
    (evaluate extC4 ["a", "b", "c"]
      (Sum.inl [FVal.finite 0, FVal.finite 0]) 88200).duration ≠
      (2 : ℚ) / 88200 := by
  refine ⟨rfl, ?_⟩
  rw [evaluate_duration]
  unfold durationOf
  have h1 : (collapsedResampled extC4
      (Sum.inl [FVal.finite 0, FVal.finite 0]) 88200).length = 1 := rfl
  rw [h1]
  norm_num

/-- C4, amended: the response always reports the decoded sample rate, and
its duration is the post-resample sample count divided by that rate; this
equals the decoded buffer's own length over the rate exactly when the
rate is canonical (44100 Hz) and resampling is skipped. -/
theorem c4_reported_duration (ext : Externals) (classes : List String)
    (audio : AudioArray) (sampleRate : Nat) :
    (evaluate ext classes audio sampleRate).sampleRate = sampleRate ∧
    (evaluate ext classes audio sampleRate).duration =
      ((collapsedResampled ext audio sampleRate).length : ℚ) /
        (sampleRate : ℚ) ∧
    (sampleRate = 44100 →
      (evaluate ext classes audio sampleRate).duration =
        ((channelCollapse audio).length : ℚ) / (sampleRate : ℚ)) := by
  refine ⟨rfl, rfl, ?_⟩
  intro h
  subst h
  rw [evaluate_duration]
  unfold durationOf collapsedResampled
  simp

/-- Witness for C4 at a concrete input at the canonical rate. -/
theorem c4_witness :
    (evaluate ext0 ["a", "b", "c"] (Sum.inl [FVal.finite 0])
      44100).sampleRate = 44100 ∧
    (evaluate ext0 ["a", "b", "c"] (Sum.inl [FVal.finite 0])
      44100).duration =
      ((channelCollapse (Sum.inl [FVal.finite 0])).length : ℚ) /
        ((44100 : Nat) : ℚ) :=
  ⟨(c4_reported_duration ext0 ["a", "b", "c"] (Sum.inl [FVal.finite 0])
      44100).1,
    (c4_reported_duration ext0 ["a", "b", "c"] (Sum.inl [FVal.finite 0])
      44100).2.2 rfl⟩

/-- C5, confirmed: for any request whose network emits at least three
logits and for any positive exponential, the predictions list has exactly
3 entries, is sorted by descending confidence, every confidence lies in
the unit interval, the softmax distribution over the full class set sums
to at most 1, and the three returned confidences sum to at most 1. -/
theorem c5_top3_predictions (ext : Externals) (classes : List String)
    (audio : AudioArray) (sampleRate : Nat)
    (hpos : ∀ x, 0 < ext.pexp x)
    (hlen : 3 ≤ (modelLogits ext audio sampleRate).length) :
    (evaluate ext classes audio sampleRate).predictions.length = 3 ∧
    (evaluate ext classes audio sampleRate).predictions.Pairwise
      (fun a b => b.2 ≤ a.2) ∧
    (∀ p ∈ (evaluate ext classes audio sampleRate).predictions,
      0 ≤ p.2 ∧ p.2 ≤ 1) ∧
    (fullProbs ext audio sampleRate).sum ≤ 1 ∧
    ((evaluate ext classes audio sampleRate).predictions.map
      Prod.snd).sum ≤ 1 := by
  have hplen : (fullProbs ext audio sampleRate).length =
      (modelLogits ext audio sampleRate).length := by
    simp [fullProbs, softmax, cleanLogits]
  refine ⟨?_, ?_, ?_, ?_, ?_⟩
  · show (predictionsOf ext classes audio sampleRate).length = 3
    rw [predictionsOf, List.length_map, topk_length]
    omega
  · show (predictionsOf ext classes audio sampleRate).Pairwise
      (fun a b => b.2 ≤ a.2)
    rw [predictionsOf, List.pairwise_map]
    exact topk_sorted _ _
  · intro p hp
    rw [evaluate] at hp
    rw [predictionsOf] at hp
    obtain ⟨q, hq, rfl⟩ := List.mem_map.mp hp
    have hmem : q.1 ∈ fullProbs ext audio sampleRate := topk_mem_fst hq
    rw [fullProbs] at hmem
    exact softmax_mem_bounds ext.pexp hpos _ _ hmem
  · rw [fullProbs]
    exact softmax_sum_le_one ext.pexp hpos _
  · show ((predictionsOf ext classes audio sampleRate).map Prod.snd).sum ≤ 1
    rw [predictionsOf, List.map_map]
    have hcomp : (Prod.snd ∘ fun p : ℚ × Nat => (classes.getD p.2 "", p.1))
        = Prod.fst := rfl
    rw [hcomp]
    rw [fullProbs]
    exact topk_softmax_sum_le_one ext.pexp hpos _ 3

/-- Witness for C5 at a concrete request: `ext0` emits three finite
logits and its exponential is the constant 1, which is positive. -/
theorem c5_witness :
    (evaluate ext0 ["a", "b", "c"] (Sum.inl [FVal.finite 0])
      44100).predictions.length = 3 ∧
    (evaluate ext0 ["a", "b", "c"] (Sum.inl [FVal.finite 0])
      44100).predictions.Pairwise (fun a b => b.2 ≤ a.2) ∧
    (∀ p ∈ (evaluate ext0 ["a", "b", "c"] (Sum.inl [FVal.finite 0])
      44100).predictions, 0 ≤ p.2 ∧ p.2 ≤ 1) ∧
    (fullProbs ext0 (Sum.inl [FVal.finite 0]) 44100).sum ≤ 1 ∧
    ((evaluate ext0 ["a", "b", "c"] (Sum.inl [FVal.finite 0])
      44100).predictions.map Prod.snd).sum ≤ 1 :=
  c5_top3_predictions ext0 ["a", "b", "c"] (Sum.inl [FVal.finite 0]) 44100
    (fun _ => one_pos) (by decide)

/-- C6, confirmed: the waveform handed to spectrogram computation is
bit-identical to the channel-collapsed input exactly when the decoded
sample rate equals 44100, and the resampler is invoked on it exactly when
the rate differs from 44100 (exact integer comparison). -/
theorem c6_resample_guard (ext : Externals) (audio : AudioArray)
    (sampleRate : Nat) :
    (sampleRate = 44100 →
      collapsedResampled ext audio sampleRate = channelCollapse audio) ∧
    (sampleRate ≠ 44100 →
      collapsedResampled ext audio sampleRate =
        ext.resample (channelCollapse audio) sampleRate) := by
  constructor
  · intro h
    subst h
    unfold collapsedResampled
    simp
  · intro h
    unfold collapsedResampled
    simp [h]

/-- Witness for C6: both branches of the guard at concrete rates. -/
theorem c6_witness :
    collapsedResampled ext0 (Sum.inl [FVal.finite 1]) 44100 =
      channelCollapse (Sum.inl [FVal.finite 1]) ∧
    collapsedResampled ext0 (Sum.inl [FVal.finite 1]) 22050 =
      ext0.resample (channelCollapse (Sum.inl [FVal.finite 1])) 22050 :=
  ⟨(c6_resample_guard ext0 (Sum.inl [FVal.finite 1]) 44100).1 rfl,
    (c6_resample_guard ext0 (Sum.inl [FVal.finite 1]) 22050).2 (by decide)⟩

/-- C7 counterexample: a valid two-channel buffer with a single frame.
Channel collapse yields one sample, but the longer input dimension is the
channel axis (2), refuting the claim that the output sample count always
equals the longer dimension. -/
theorem c7_counterexample :
    channelsOf stereoRows1 = 2 ∧
    (channelCollapse (Sum.inr stereoRows1)).length = 1 ∧
    (channelCollapse (Sum.inr stereoRows1)).length ≠
      longerDim (Sum.inr stereoRows1) := by
  refine ⟨rfl, rfl, ?_⟩
  decide

/-- C7, amended: a mono buffer passes through unchanged, and channel
collapse of a 2-D buffer yields one averaged sample per frame, so its
length equals the frame count (the first dimension); that equals the
longer input dimension whenever there are at least as many frames as
channels. -/
theorem c7_frame_count (w : List FVal) (rows : List (List FVal)) :
    channelCollapse (Sum.inl w) = w ∧
    (channelCollapse (Sum.inr rows)).length = rows.length ∧
    (channelsOf rows ≤ rows.length →
      (channelCollapse (Sum.inr rows)).length =
        longerDim (Sum.inr rows)) := by
  refine ⟨rfl, by simp [channelCollapse], ?_⟩
  intro h
  simp only [channelCollapse, longerDim, List.length_map]
  omega

/-- Witness for C7 at a concrete stereo buffer with three frames and two
channels: the collapsed length equals the longer dimension. -/
theorem c7_witness :
    (channelCollapse (Sum.inr stereoRows3)).length =
      longerDim (Sum.inr stereoRows3) :=
  (c7_frame_count [] stereoRows3).2.2 (by decide)

/-- C8, confirmed: the projection shortcut is constructed exactly when
the stride differs from 1 or the channel widths differ, and on any valid
input shape (matching the declared input channels, with positive spatial
extent) the block's output shape equals the shortcut-path shape, so the
residual addition is shape-compatible. -/
theorem c8_residual_block (inC outC stride : Nat) (t : TShape)
    (hc : t.c = inC) (hh : 1 ≤ t.h) (hw : 1 ≤ t.w) :
    (useShortcut inC outC stride = true ↔ (stride ≠ 1 ∨ inC ≠ outC)) ∧
    residualBlockOutShape inC outC stride t =
      residualShortcutShape inC outC stride t := by
  constructor
  · simp [useShortcut]
  · cases t with
  | mk tc th tw =>
    subst hc
    by_cases hus : useShortcut tc outC stride = true
    · rw [residualBlockOutShape, residualShortcutShape, if_pos hus]
      unfold residualMainShape conv2dShape convOutDim
      have e : ∀ d : Nat,
          ((d + 2 * 1 - 3) / stride + 1 + 2 * 1 - 3) / 1 + 1 =
            (d + 2 * 0 - 1) / stride + 1 := by
        intro d
        have h1 : d + 2 * 1 - 3 = d + 2 * 0 - 1 := by omega
        rw [h1, Nat.div_one]
        generalize (d + 2 * 0 - 1) / stride = x
        omega
      congr 1
      · exact e th
      · exact e tw
    · rw [residualBlockOutShape, residualShortcutShape, if_neg hus]
      have hse : stride = 1 ∧ tc = outC := by
        simpa [useShortcut, not_or] using hus
      obtain ⟨h1, h2⟩ := hse
      subst h1
      subst h2
      have hh2 : 1 ≤ th := hh
      have hw2 : 1 ≤ tw := hw
      unfold residualMainShape conv2dShape convOutDim
      congr 1
      · dsimp only
        rw [Nat.div_one, Nat.div_one]
        omega
      · dsimp only
        rw [Nat.div_one, Nat.div_one]
        omega

/-- Witness for C8: the first block of stage 2 (64→64 channels, stride 1,
identity shortcut) on a concrete 64×8×8 input shape. -/
theorem c8_witness :
    (useShortcut 64 64 1 = true ↔ ((1 : Nat) ≠ 1 ∨ (64 : Nat) ≠ 64)) ∧
    residualBlockOutShape 64 64 1 ⟨64, 8, 8⟩ =
      residualShortcutShape 64 64 1 ⟨64, 8, 8⟩ :=
  c8_residual_block 64 64 1 ⟨64, 8, 8⟩ rfl (by decide) (by decide)

/-- C9, confirmed: checkpoint loading propagates a read failure (aborting
startup), succeeds strictly when the model's and checkpoint's key sets
coincide, and otherwise falls back to a load that records exactly the
missing keys (model keys absent from the checkpoint) and the unexpected
keys (checkpoint keys absent from the model) — never reporting a strict
load on a mismatch. -/
theorem c9_checkpoint_loading (readCkpt : Except String Checkpoint)
    (modelKeysFor : Nat → List String) :
    (∀ e, readCkpt = Except.error e →
      load_model readCkpt modelKeysFor = Except.error e) ∧
    (∀ ckpt, readCkpt = Except.ok ckpt →
      (keyDiff (modelKeysFor ckpt.classes.length) ckpt.stateDictKeys = [] ∧
        keyDiff ckpt.stateDictKeys (modelKeysFor ckpt.classes.length) = [] →
        load_model readCkpt modelKeysFor =
          Except.ok (ckpt.classes, LoadOutcome.strict)) ∧
      ((keyDiff (modelKeysFor ckpt.classes.length) ckpt.stateDictKeys ≠ [] ∨
        keyDiff ckpt.stateDictKeys (modelKeysFor ckpt.classes.length) ≠ []) →
        load_model readCkpt modelKeysFor =
          Except.ok (ckpt.classes,
            LoadOutcome.degraded
              (keyDiff (modelKeysFor ckpt.classes.length) ckpt.stateDictKeys)
              (keyDiff ckpt.stateDictKeys
                (modelKeysFor ckpt.classes.length))))) := by
  constructor
  · intro e he
    subst he
    rfl
  · intro ckpt hck
    subst hck
    constructor
    · intro h
      obtain ⟨h1, h2⟩ := h
      have hfalse : strictLoadRaises (modelKeysFor ckpt.classes.length)
          ckpt.stateDictKeys = false := by
        unfold strictLoadRaises
        rw [h1, h2]
        rfl
      simp [load_model, hfalse]
    · intro h
      have htrue : strictLoadRaises (modelKeysFor ckpt.classes.length)
          ckpt.stateDictKeys = true := by
        unfold strictLoadRaises
        rcases h with h | h <;>
          simp [List.isEmpty_iff, h]
      simp [load_model, htrue]

/-- Witness for C9: a read failure propagates; a matching key set loads
strictly; a mismatched key set loads with the discrepancy recorded. -/
theorem c9_witness :
    load_model (Except.error "unreadable") (fun _ => ["k1"]) =
      Except.error "unreadable" ∧
    load_model (Except.ok ⟨["a"], ["k1"]⟩) (fun _ => ["k1"]) =
      Except.ok (["a"], LoadOutcome.strict) ∧
    load_model (Except.ok ⟨["a"], ["k2"]⟩) (fun _ => ["k1"]) =
      Except.ok (["a"], LoadOutcome.degraded ["k1"] ["k2"]) :=
  ⟨(c9_checkpoint_loading (Except.error "unreadable") (fun _ => ["k1"])).1
      "unreadable" rfl,
    ((c9_checkpoint_loading (Except.ok ⟨["a"], ["k1"]⟩)
      (fun _ => ["k1"])).2 ⟨["a"], ["k1"]⟩ rfl).1 (by decide),
    ((c9_checkpoint_loading (Except.ok ⟨["a"], ["k2"]⟩)
      (fun _ => ["k1"])).2 ⟨["a"], ["k2"]⟩ rfl).2 (by decide)⟩

/-- C10, confirmed: the capture keys of the instrumented forward pass use
the hyphenated stem `"layerN.block-i"` for every block of stages 2-4
(3, 4 and 6 blocks), but the unhyphenated stem `"layer5.blocki"` for the
3 blocks of stage 5 — no hyphenated `"layer5.block-i"` key exists, so a
lookup assuming the uniform hyphenated scheme misses every stage-5
per-block map — and the five stage outputs are keyed `"layer1"` through
`"layer5"`. -/
theorem c10_feature_map_keys :
    ((List.range 3).all (fun i =>
      featureMapKeys.contains ("layer2.block-" ++ toString i ++ ".conv") &&
      featureMapKeys.contains ("layer2.block-" ++ toString i ++ ".relu")))
        = true ∧
    ((List.range 4).all (fun i =>
      featureMapKeys.contains ("layer3.block-" ++ toString i ++ ".conv") &&
      featureMapKeys.contains ("layer3.block-" ++ toString i ++ ".relu")))
        = true ∧
    ((List.range 6).all (fun i =>
      featureMapKeys.contains ("layer4.block-" ++ toString i ++ ".conv") &&
      featureMapKeys.contains ("layer4.block-" ++ toString i ++ ".relu")))
        = true ∧
    ((List.range 3).all (fun i =>
      featureMapKeys.contains ("layer5.block" ++ toString i ++ ".conv") &&
      featureMapKeys.contains ("layer5.block" ++ toString i ++ ".relu")))
        = true ∧
    ((List.range 3).all (fun i =>
      !featureMapKeys.contains ("layer5.block-" ++ toString i ++ ".conv") &&
      !featureMapKeys.contains ("layer5.block-" ++ toString i ++ ".relu")))
        = true ∧
    (["layer1", "layer2", "layer3", "layer4", "layer5"].all
      featureMapKeys.contains) = true := by
  refine ⟨?_, ?_, ?_, ?_, ?_, ?_⟩ <;> decide
